import Mathlib

/-!
Verification of the check-execution and filter-resolution engine of the
`iprecommit` pre-commit hook runner, as implemented in
`src/iprecommit/checks.py` (with the data model of
`src/iprecommit/tomlconfig.py` and the version-control interface of
`src/iprecommit/githelper.py`).

Paths are modelled as strings (Python `pathlib.Path` values are compared and
matched via their string form on a POSIX system). Subprocess invocation is
modelled by an oracle `exec : List String → Bool` mapping a full command line
to the success of its exit status (`returncode == 0`). Terminal output
(`print`, colors, status lines) is not modelled; instead the engine model
records the observable events: the outcome reported for each processed check
and every command that is actually executed.

The executor oracle is a fixed function of the command line, so command
outcomes are modelled as deterministic within a run; the repository state,
which fix commands can change, is modelled by the two-phase git oracle
described at `GitState`.
-/

set_option autoImplicit false

namespace IPrecommit

/-! ### Glob matching (Python `fnmatch.fnmatch` on POSIX)

`fnmatch.fnmatch(name, pat)` on POSIX (where `os.path.normcase` is the
identity) matches `name` against `pat` where `*` matches any sequence of
characters, `?` matches any single character, and `[seq]` / `[!seq]` match a
character (not) in `seq`, with `-` ranges; a `]` directly after the opening
`[` (or after `[!`) is a literal member of the class, and an unterminated
`[` is a literal character. -/

/-- Scan a character-class body up to the closing `]`. Returns the class body
and the remainder of the pattern, or `none` if the class is unterminated. -/
def splitClassAux : List Char → Option (List Char × List Char)
  | [] => none
  | c :: rest =>
    if c = ']' then some ([], rest)
    else (splitClassAux rest).map (fun br => (c :: br.1, br.2))

/-- Like `splitClassAux`, but a `]` in the first position is a literal class
member rather than the terminator. -/
def splitClassBody : List Char → Option (List Char × List Char)
  | ']' :: rest => (splitClassAux rest).map (fun br => (']' :: br.1, br.2))
  | rest => splitClassAux rest

/-- Parse the inside of a `[...]` character class: an optional leading `!`
negates the class, then the body runs to the closing `]`. -/
def splitClass : List Char → Option (Bool × List Char × List Char)
  | '!' :: rest => (splitClassBody rest).map (fun br => (true, br.1, br.2))
  | l => (splitClassBody l).map (fun br => (false, br.1, br.2))

/-- One token of a glob pattern. -/
inductive GlobTok where
  | star
  | anyChar
  | lit (c : Char)
  | cls (neg : Bool) (body : List Char)
deriving DecidableEq, Repr

/-- Tokenize a glob pattern, following `fnmatch.translate`:
`*`, `?`, character classes (with an unterminated `[` taken literally),
and literal characters. Structured with explicit fuel (each step consumes at
least one pattern character, so `l.length + 1` fuel always suffices) so that
the definition is structurally recursive and reduces in the kernel. -/
def lexGlobF : Nat → List Char → List GlobTok
  | 0, _ => []
  | _ + 1, [] => []
  | fuel + 1, '*' :: ps => .star :: lexGlobF fuel ps
  | fuel + 1, '?' :: ps => .anyChar :: lexGlobF fuel ps
  | fuel + 1, '[' :: ps =>
    match splitClass ps with
    | some (neg, body, rest) => .cls neg body :: lexGlobF fuel rest
    | none => .lit '[' :: lexGlobF fuel ps
  | fuel + 1, c :: ps => .lit c :: lexGlobF fuel ps

/-- Tokenize a whole glob pattern. -/
def lexGlob (l : List Char) : List GlobTok := lexGlobF (l.length + 1) l

/-- Does character `c` belong to the (non-negated) class body? `lo-hi` spans a
range; a `-` without both endpoints is a literal. -/
def classMatch (c : Char) : List Char → Bool
  | [] => false
  | lo :: '-' :: hi :: rest => (decide (lo ≤ c) && decide (c ≤ hi)) || classMatch c rest
  | x :: rest => (c == x) || classMatch c rest

/-- Match a tokenized glob pattern against a list of characters. Structured
with explicit fuel (every recursive step shrinks `p.length + s.length`, so
`p.length + s.length + 1` fuel always suffices) so that the definition is
structurally recursive and reduces in the kernel. -/
def tokMatchF : Nat → List GlobTok → List Char → Bool
  | 0, _, _ => false
  | _ + 1, [], s => s.isEmpty
  | fuel + 1, .star :: ps, [] => tokMatchF fuel ps []
  | fuel + 1, .star :: ps, c :: cs =>
    tokMatchF fuel ps (c :: cs) || tokMatchF fuel (.star :: ps) cs
  | fuel + 1, .anyChar :: ps, _ :: cs => tokMatchF fuel ps cs
  | _ + 1, .anyChar :: _, [] => false
  | fuel + 1, .cls neg body :: ps, c :: cs =>
    (classMatch c body != neg) && tokMatchF fuel ps cs
  | _ + 1, .cls _ _ :: _, [] => false
  | fuel + 1, .lit a :: ps, c :: cs => (a == c) && tokMatchF fuel ps cs
  | _ + 1, .lit _ :: _, [] => false

/-- Match a tokenized glob pattern against a list of characters. -/
def tokMatch (p : List GlobTok) (s : List Char) : Bool :=
  tokMatchF (p.length + s.length + 1) p s

/-- `fnmatch name pat` models Python `fnmatch.fnmatch(name, pat)` on POSIX. -/
def fnmatch (name : String) (pat : String) : Bool :=
  tokMatch (lexGlob pat.toList) name.toList

/-! ### `filter_paths` (src/iprecommit/checks.py, lines 288-314) -/

/-- Python `pat.startswith("!")`. (Defined over the character list so the
kernel can evaluate it; `String.startsWith` does not kernel-reduce.) -/
def startsBang (pat : String) : Bool :=
  match pat.toList with
  | '!' :: _ => true
  | _ => false

/-- Python `pat[1:]`: drop the first character. -/
def strTail (pat : String) : String := String.mk (pat.toList.drop 1)

/-- Python `name.lower()`. -/
def strToLower (s : String) : String := String.mk (s.toList.map Char.toLower)

/-- `compile_filter` from src/iprecommit/checks.py: a pattern beginning with
`!` is an exclude — a matching path's tag is overwritten to `False`; any
other pattern is an include — a matching path's tag is overwritten to
`True`; a non-matching path's pair is returned unchanged. -/
def compile_filter (pat : String) : String × Bool → String × Bool :=
  if startsBang pat then
    fun pair => if fnmatch pair.1 (strTail pat) then (pair.1, false) else pair
  else
    fun pair => if fnmatch pair.1 pat then (pair.1, true) else pair

/-- `filter_paths` from src/iprecommit/checks.py: an empty filter list returns
the paths unchanged; a chain whose first pattern is an exclude gets an
include-all `*` prepended; the first compiled filter is applied to each path
paired with an initial `False` tag, the remaining filters are mapped over the
pairs in order, and the paths whose final tag is `True` are returned. -/
def filter_paths (paths : List String) (filters : List String) : List String :=
  match filters with
  | [] => paths
  | f0 :: _ =>
    let fs := if startsBang f0 then "*" :: filters else filters
    match fs.map compile_filter with
    | [] => paths
    | base_filter :: compiled_filters =>
      let pairs := paths.map (fun path => base_filter (path, false))
      let pairs2 := compiled_filters.foldl (fun prs f => prs.map f) pairs
      (pairs2.filter (fun pr => pr.2)).map (fun pr => pr.1)

/-! ### Data model (src/iprecommit/tomlconfig.py) -/

/-- A `[[pre_commit]]` check (`PreCommitCheck` in src/iprecommit/tomlconfig.py). -/
structure PreCommitCheck where
  name : String
  cmd : List String
  fix_cmd : List String
  pass_files : Bool
  filters : List String
  working_dir : Option String
  fail_fast : Bool
  autofix : Bool
  skip : Bool
deriving DecidableEq, Repr

/-- The parsed configuration (`Config` in src/iprecommit/tomlconfig.py).
The `pre_push_checks` and `commit_msg_checks` lists are not modelled: the
claims under verification concern only the pre-commit engine. -/
structure Config where
  autofix : Bool
  fail_fast : Bool
  pre_commit_checks : List PreCommitCheck
deriving DecidableEq, Repr

/-- The status printed for a processed check: `skipped`, `passed`, `failed`
from `_run_pre_commit_check`; `finished` and `fixFailed` (printed as
"finished" / "fix failed") from `_run_pre_commit_fix`. -/
inductive Outcome where
  | skipped
  | passed
  | failed
  | finished
  | fixFailed
deriving DecidableEq, Repr

/-- The mutable counters of the `Checks` object: `num_failed_checks` and
`failed_fixable_checks` (src/iprecommit/checks.py, lines 14-22). -/
structure CheckState where
  num_failed_checks : Nat
  failed_fixable_checks : List PreCommitCheck
deriving DecidableEq, Repr

/-! ### The check pass (`Checks._run_pre_commit_check`, lines 84-123)

The subprocess runner `Checks._run_one` is modelled by an oracle
`exec : List String → Bool` giving the success (`returncode == 0`) of a full
command line. Printing is not modelled; instead the model returns the
outcome reported for each processed check (in processing order; checks
aborted by fail-fast do not appear) and the list of commands actually
executed. -/

/-- Result of one `_run_pre_commit_check` pass: the final counter state, the
`(check, outcome)` pairs for the checks processed, and the `(check, command)`
pairs for the commands executed. -/
structure PassResult where
  state : CheckState
  outcomes : List (PreCommitCheck × Outcome)
  execs : List (PreCommitCheck × List String)
deriving DecidableEq, Repr

/-- `Checks._run_pre_commit_check`: for each check in order, filter the
changed paths; if `check.skip` or the filtered list is empty, report
`skipped`; otherwise run `check.cmd` (with the filtered paths appended when
`check.pass_files`). On failure increment `num_failed_checks`, append the
check to `failed_fixable_checks` when
`check.fix_cmd and config.autofix or check.autofix` (Python precedence:
`(fix_cmd ≠ [] ∧ config.autofix) ∨ check.autofix`), and break out of the
loop when `config.fail_fast or check.fail_fast or fail_fast`. -/
def run_pre_commit_check (exec : List String → Bool) (config : Config)
    (fail_fast : Bool) (all_changed_paths : List String)
    (st : CheckState) : List PreCommitCheck → PassResult
  | [] => ⟨st, [], []⟩
  | check :: rest =>
    let filtered_changed_paths := filter_paths all_changed_paths check.filters
    if check.skip || filtered_changed_paths.isEmpty then
      let r := run_pre_commit_check exec config fail_fast all_changed_paths st rest
      ⟨r.state, (check, .skipped) :: r.outcomes, r.execs⟩
    else
      let cmd := if check.pass_files then check.cmd ++ filtered_changed_paths else check.cmd
      if exec cmd then
        let r := run_pre_commit_check exec config fail_fast all_changed_paths st rest
        ⟨r.state, (check, .passed) :: r.outcomes, (check, cmd) :: r.execs⟩
      else
        let st' : CheckState :=
          { num_failed_checks := st.num_failed_checks + 1
            failed_fixable_checks :=
              st.failed_fixable_checks ++
                if (!check.fix_cmd.isEmpty && config.autofix) || check.autofix then [check]
                else [] }
        if config.fail_fast || check.fail_fast || fail_fast then
          ⟨st', [(check, .failed)], [(check, cmd)]⟩
        else
          let r := run_pre_commit_check exec config fail_fast all_changed_paths st' rest
          ⟨r.state, (check, .failed) :: r.outcomes, (check, cmd) :: r.execs⟩

/-! ### The fix pass (`Checks._run_pre_commit_fix`, lines 125-159) -/

/-- Result of one `_run_pre_commit_fix` pass: outcomes for the processed
fixable checks, the fix commands executed, and the file lists passed to
`git add` for re-staging after a successful fix. -/
structure FixResult where
  outcomes : List (PreCommitCheck × Outcome)
  execs : List (PreCommitCheck × List String)
  staged : List (List String)
deriving DecidableEq, Repr

/-- The loop body of `_run_pre_commit_fix` over the already-restricted list
of fixable checks. -/
def run_fix_loop (exec : List String → Bool) (all_changed_paths : List String)
    (unstaged : Bool) : List PreCommitCheck → FixResult
  | [] => ⟨[], [], []⟩
  | check :: rest =>
    let filtered_changed_paths := filter_paths all_changed_paths check.filters
    if check.skip || filtered_changed_paths.isEmpty then
      let r := run_fix_loop exec all_changed_paths unstaged rest
      ⟨(check, .skipped) :: r.outcomes, r.execs, r.staged⟩
    else
      let cmd := if check.pass_files then check.fix_cmd ++ filtered_changed_paths
                 else check.fix_cmd
      let r := run_fix_loop exec all_changed_paths unstaged rest
      if exec cmd then
        ⟨(check, .finished) :: r.outcomes, (check, cmd) :: r.execs,
          (if unstaged then r.staged else filtered_changed_paths :: r.staged)⟩
      else
        ⟨(check, .fixFailed) :: r.outcomes, (check, cmd) :: r.execs, r.staged⟩

/-- `Checks._run_pre_commit_fix`: restrict to the checks with a non-empty
`fix_cmd`, then for each: filter the changed paths; skip if `check.skip` or
nothing matches; otherwise run `check.fix_cmd` (with the filtered paths
appended when `check.pass_files`); on success re-stage the filtered paths
with `git add` unless running in unstaged mode. -/
def run_pre_commit_fix (exec : List String → Bool) (all_changed_paths : List String)
    (checks : List PreCommitCheck) (unstaged : Bool) : FixResult :=
  let fixable_checks := checks.filter (fun check => !check.fix_cmd.isEmpty)
  run_fix_loop exec all_changed_paths unstaged fixable_checks

/-! ### Version control interface (src/iprecommit/githelper.py)

The git queries are modelled by a snapshot of the repository state. Because
fix commands can change the repository, the orchestrator model receives an
oracle `git : Bool → GitState`: `git false` is the state when the run starts
and `git true` is the state after the Autofixing phase has completed (the
state a re-resolution during the Retrying phase would observe). -/

/-- A snapshot of the answers the git helper functions would give. -/
structure GitState where
  tracked : List String
  changedCached : List String
  changedHead : List String
  untracked : List String
  deletedHead : List String

/-- `githelper.get_changed_paths(include_unstaged=...)`: added and modified
paths, diffed against `HEAD` when `include_unstaged` else against the index. -/
def get_changed_paths (g : GitState) (include_unstaged : Bool) : List String :=
  if include_unstaged then g.changedHead else g.changedCached

/-- Lexicographic comparison of strings by their character lists (Python
`sorted` on paths; defined so the kernel can evaluate it). -/
def strLeChars : List Char → List Char → Bool
  | [], _ => true
  | _ :: _, [] => false
  | a :: as, b :: bs => if a = b then strLeChars as bs else decide (a < b)

/-- `strLe a b` decides `a ≤ b` on strings. -/
def strLe (a b : String) : Bool := strLeChars a.toList b.toList

/-- The path-resolution step of `Checks.run_pre_commit` (lines 37-52): with
`--all`, the sorted set of tracked + changed + untracked paths minus the
deleted ones; otherwise the changed paths (against the index, or against
`HEAD` when `--unstaged`) followed by the untracked paths. -/
def resolve_changed_paths (g : GitState) (unstaged all_files : Bool) : List String :=
  if all_files then
    (((g.tracked ++ g.changedHead ++ g.untracked).dedup).filter
        (fun p => !g.deletedHead.contains p)).insertionSort
      (fun a b => strLe a b = true)
  else
    get_changed_paths g unstaged ++ g.untracked

/-! ### Check selection (`Checks._get_checks_to_run`, lines 233-249) -/

/-- A fatal configuration error (`IPrecommitError`); `main` reports it via
`bail`, which exits with status 1. -/
inductive RunError where
  | unknownCheckName (name : String)
deriving DecidableEq, Repr

/-- The loop of `_get_checks_to_run`: for each (lowercased) name to skip,
mark every check with that name as `skip`; if no check has the name, raise.
Python iterates the *set* of names in unspecified order; marking is
order-independent and an error occurs exactly when some name matches no
check, so this left-to-right model is faithful up to which unknown name is
reported. -/
def mark_skips : List PreCommitCheck → List String → Except RunError (List PreCommitCheck)
  | checks, [] => .ok checks
  | checks, name :: rest =>
    if checks.any (fun check => strToLower check.name == name) then
      mark_skips
        (checks.map (fun check =>
          if strToLower check.name == name then { check with skip := true } else check))
        rest
    else .error (.unknownCheckName name)

/-- `Checks._get_checks_to_run`. -/
def get_checks_to_run (config : Config) (skip_list : List String) :
    Except RunError (List PreCommitCheck) :=
  mark_skips config.pre_commit_checks (skip_list.map strToLower)

/-- Modelled from the spec: the `--only` selection step. `main.py` passes
`only=args.only` to `run_pre_commit`, but the revision of `checks.py` under
`src/` has no `only` parameter, so the handling code is missing from the
sources. Per the spec, "an unknown `--skip`/`--only` name is a fatal
configuration error raised before ResolvingChanges" and a valid `--only`
runs "only the given check", i.e. every check not named is skipped. -/
def select_only (checks : List PreCommitCheck) (only_list : List String) :
    Except RunError (List PreCommitCheck) :=
  match only_list.map strToLower with
  | [] => .ok checks
  | names =>
    match names.find? (fun n => !checks.any (fun check => strToLower check.name == n)) with
    | some n => .error (.unknownCheckName n)
    | none =>
      .ok (checks.map (fun check =>
        if names.contains (strToLower check.name) then check
        else { check with skip := true }))

/-! ### The orchestrator (`Checks.run_pre_commit`, lines 24-82) -/

/-- The observable result of one `run_pre_commit` invocation: for each
`_run_pre_commit_check` pass, the candidate path list it was given, the
counter state it started from, and its result; for each
`_run_pre_commit_fix` pass, the candidate path list and its result; and the
final counter state that `_summary` consults. -/
structure RunResult where
  passes : List (List String × CheckState × PassResult)
  fixes : List (List String × FixResult)
  final : CheckState
deriving DecidableEq, Repr

/-- The body of `Checks.run_pre_commit` after check selection (lines 37-82):
resolve the changed paths once; in fix mode run a single fix pass; otherwise
run a check pass, and if `num_failed_checks > 0` and
`failed_fixable_checks` is non-empty, run a fix pass over the failed
fixable checks, reset both counters, and run the check pass once more —
each time on the path list resolved at the start (`git false`). -/
def run_pre_commit_body (exec : List String → Bool) (config : Config)
    (git : Bool → GitState) (fix_mode unstaged all_files fail_fast : Bool)
    (checks : List PreCommitCheck) : RunResult :=
  let all_changed_paths := resolve_changed_paths (git false) unstaged all_files
  let st0 : CheckState := ⟨0, []⟩
  if fix_mode then
    let fr := run_pre_commit_fix exec all_changed_paths checks unstaged
    ⟨[], [(all_changed_paths, fr)], st0⟩
  else
    let r1 := run_pre_commit_check exec config fail_fast all_changed_paths st0 checks
    if r1.state.num_failed_checks > 0 && !r1.state.failed_fixable_checks.isEmpty then
      let fr := run_pre_commit_fix exec all_changed_paths
        r1.state.failed_fixable_checks unstaged
      let r2 := run_pre_commit_check exec config fail_fast all_changed_paths st0 checks
      ⟨[(all_changed_paths, st0, r1), (all_changed_paths, st0, r2)],
        [(all_changed_paths, fr)], r2.state⟩
    else
      ⟨[(all_changed_paths, st0, r1)], [], r1.state⟩

/-- `Checks.run_pre_commit`: select the checks to run (raising on an unknown
`--skip` name) and then run the body. The selection happens before any git
query and before any command execution. -/
def run_pre_commit (exec : List String → Bool) (config : Config)
    (git : Bool → GitState) (fix_mode unstaged all_files fail_fast : Bool)
    (skip : List String) : Except RunError RunResult :=
  (get_checks_to_run config skip).map
    (run_pre_commit_body exec config git fix_mode unstaged all_files fail_fast)

/-- `main_pre_commit` as called from the CLI, including the `--only` flag
(whose selection step is modelled from the spec, see `select_only`). -/
def run_pre_commit_cli (exec : List String → Bool) (config : Config)
    (git : Bool → GitState) (fix_mode unstaged all_files fail_fast : Bool)
    (skip only_names : List String) : Except RunError RunResult :=
  match get_checks_to_run config skip with
  | .error e => .error e
  | .ok checks =>
    match select_only checks only_names with
    | .error e => .error e
    | .ok checks2 =>
      .ok (run_pre_commit_body exec config git fix_mode unstaged all_files fail_fast checks2)

/-- The process exit status: `main` turns an `IPrecommitError` into `bail`
(exit 1, common.py lines 6-8); otherwise `Checks._summary` exits 1 exactly
when `num_failed_checks > 0` (checks.py lines 254-261). -/
def main_exit_code (r : Except RunError RunResult) : Nat :=
  match r with
  | .error _ => 1
  | .ok res => if res.final.num_failed_checks > 0 then 1 else 0

/-- Does `path` match the glob of `pat` (for an exclude pattern `!g`, the
glob is `g`)? A pattern overwrites a path's include/exclude tag exactly when
this holds (see `compile_filter`). -/
def matches_filter (path : String) (pat : String) : Bool :=
  if startsBang pat then fnmatch path (strTail pat) else fnmatch path pat

/-! ### Concrete fixtures used by counterexamples and witnesses -/

/-- A check that always fails, has no fix command, but sets `autofix`. -/
def chkUnfixable : PreCommitCheck :=
  ⟨"Unfixable", ["unfixable-cmd"], [], true, [], none, false, true, false⟩

/-- Configuration with global `autofix = false` and only `chkUnfixable`. -/
def cfgC1 : Config := ⟨false, false, [chkUnfixable]⟩

/-- A repository with one staged change and nothing else. -/
def gitSimple : GitState := ⟨[], ["a.txt"], ["a.txt"], [], []⟩

/-- A git oracle whose state is unaffected by fixes. -/
def gitConst : Bool → GitState := fun _ => gitSimple

/-- An executor for which every command fails. -/
def execFail : List String → Bool := fun _ => false

/-- A fixable check `A` whose command fails. -/
def chkA : PreCommitCheck := ⟨"A", ["a-cmd"], ["a-fix"], true, [], none, false, false, false⟩

/-- A fixable check `B` whose command passes. -/
def chkB : PreCommitCheck := ⟨"B", ["b-cmd"], ["b-fix"], true, [], none, false, false, false⟩

/-- Configuration with global `autofix = true` and checks `A`, `B`. -/
def cfgC2 : Config := ⟨true, false, [chkA, chkB]⟩

/-- An executor failing exactly the commands of check `A`. -/
def execFailA : List String → Bool := fun cmd => cmd.head? != some "a-cmd"

/-- The run of `cfgC2` in check mode. -/
def runC2 : Except RunError RunResult :=
  run_pre_commit execFailA cfgC2 gitConst false false false false []

/-- The result of `runC2`. -/
def rC2 : RunResult := runC2.toOption.getD ⟨[], [], ⟨0, []⟩⟩

/-- A check whose fix command succeeds but never resolves the failure. -/
def chkNoop : PreCommitCheck :=
  ⟨"Noop", ["noop-cmd"], ["noop-fix"], true, [], none, false, false, false⟩

/-- Configuration with global `autofix = true` and the no-op-fix check. -/
def cfgC3 : Config := ⟨true, false, [chkNoop]⟩

/-- An executor for which only the fix command succeeds. -/
def execNoopFix : List String → Bool := fun cmd => cmd.head? == some "noop-fix"

/-- The run of `cfgC3` in check mode: the fix succeeds but the check keeps
failing, so the retry pass fails as well. -/
def runC3 : Except RunError RunResult :=
  run_pre_commit execNoopFix cfgC3 gitConst false false false false []

/-- The result of `runC3`. -/
def rC3 : RunResult := runC3.toOption.getD ⟨[], [], ⟨0, []⟩⟩

/-- A git oracle whose changed paths differ after the Autofixing phase:
initially `a.txt` is changed; afterwards `b.txt` is. -/
def gitChanging : Bool → GitState := fun after_fix =>
  if after_fix then ⟨[], ["b.txt"], ["b.txt"], [], []⟩ else gitSimple

/-- The run of `cfgC3` against `gitChanging`. -/
def runC4 : Except RunError RunResult :=
  run_pre_commit execNoopFix cfgC3 gitChanging false false false false []

/-- The result of `runC4`. -/
def rC4 : RunResult := runC4.toOption.getD ⟨[], [], ⟨0, []⟩⟩

/-- A check restricted to Python files. -/
def chkPy : PreCommitCheck :=
  ⟨"PyOnly", ["py-cmd"], [], true, ["*.py"], none, false, false, false⟩

/-- A failing check with `fail_fast` set. -/
def chkFFA : PreCommitCheck := ⟨"FFA", ["ffa-cmd"], [], true, [], none, true, false, false⟩

/-- A plain check `FFB`. -/
def chkFFB : PreCommitCheck := ⟨"FFB", ["ffb-cmd"], [], true, [], none, false, false, false⟩

/-- A plain check `FFC`. -/
def chkFFC : PreCommitCheck := ⟨"FFC", ["ffc-cmd"], [], true, [], none, false, false, false⟩

/-- An executor failing exactly the commands of check `FFA`. -/
def execFailFFA : List String → Bool := fun cmd => cmd.head? != some "ffa-cmd"

/-- Configuration for the fail-fast scenario, no global flags. -/
def cfgC8 : Config := ⟨false, false, [chkFFA, chkFFB, chkFFC]⟩

/-- Configuration for the unknown `--skip`/`--only` name scenario. -/
def cfgC9 : Config := ⟨false, false, [chkA]⟩

/-- A repository with one staged change and one untracked file. -/
def gitUntracked : GitState := ⟨[], ["c.txt"], ["c.txt"], ["u.txt"], []⟩

/-- A constant oracle for `gitUntracked`. -/
def gitConstU : Bool → GitState := fun _ => gitUntracked

/-- A check with no filters. -/
def chkAll : PreCommitCheck := ⟨"All", ["all-cmd"], [], true, [], none, false, false, false⟩

/-- Configuration with the single unfiltered check. -/
def cfgC10 : Config := ⟨false, false, [chkAll]⟩

/-- An executor for which every command succeeds. -/
def execPass : List String → Bool := fun _ => true

/-- The run of `cfgC10` against the repository with an untracked file. -/
def runC10 : Except RunError RunResult :=
  run_pre_commit execPass cfgC10 gitConstU false false false false []

/-- The result of `runC10`. -/
def rC10 : RunResult := runC10.toOption.getD ⟨[], [], ⟨0, []⟩⟩

/-! ## Theorems -/

/-- **C5.** `filter_paths` is deterministic (it is a pure Lean function, so
equal arguments give equal results) and: `[Include "*.py", Exclude "b.txt"]`
on `[a.py, b.txt, c.py]` yields `[a.py, c.py]`; the reordered chain
`[Exclude "b.txt", Include "*.py"]` on the same input also yields
`[a.py, c.py]` (the leading exclude gets an implicit include-all `*`
prepended); and `filter_paths ["a.txt", "b.txt"] ["!b.txt"]` yields
`["a.txt"]`. -/
theorem c5_filter_paths_examples :
    filter_paths ["a.py", "b.txt", "c.py"] ["*.py", "!b.txt"] = ["a.py", "c.py"] ∧
    filter_paths ["a.py", "b.txt", "c.py"] ["!b.txt", "*.py"] = ["a.py", "c.py"] ∧
    filter_paths ["a.txt", "b.txt"] ["!b.txt"] = ["a.txt"] :=
  ⟨by decide, by decide, by decide⟩

theorem compile_filter_fst (pat : String) (pr : String × Bool) :
    (compile_filter pat pr).1 = pr.1 := by
  unfold compile_filter
  split
  · dsimp only
    split <;> rfl
  · dsimp only
    split <;> rfl

theorem compile_filter_not_matching {pat path : String} (b : Bool)
    (h : matches_filter path pat = false) : compile_filter pat (path, b) = (path, b) := by
  unfold matches_filter at h
  unfold compile_filter
  cases hsb : startsBang pat <;> simp [hsb] at h ⊢ <;> simp [h]

theorem chain_apply_fst (l : List String) (pr : String × Bool) :
    ((l.map compile_filter).foldl (fun a f => f a) pr).1 = pr.1 := by
  induction l generalizing pr with
  | nil => rfl
  | cons pat rest ih =>
    simp only [List.map_cons, List.foldl_cons]
    rw [ih]
    exact compile_filter_fst pat pr

theorem chain_apply_not_matching (l : List String) (path : String) (b : Bool)
    (h : ∀ pat ∈ l, matches_filter path pat = false) :
    (l.map compile_filter).foldl (fun a f => f a) (path, b) = (path, b) := by
  induction l with
  | nil => rfl
  | cons pat rest ih =>
    simp only [List.map_cons, List.foldl_cons]
    rw [compile_filter_not_matching b (h pat (by simp))]
    exact ih (fun q hq => h q (by simp [hq]))

theorem foldl_map_eq_map_chain {α : Type} (fs : List (α → α)) (xs : List α) :
    fs.foldl (fun l f => l.map f) xs = xs.map (fun x => fs.foldl (fun a f => f a) x) := by
  induction fs generalizing xs with
  | nil => simp
  | cons f fs ih =>
    simp only [List.foldl_cons]
    rw [ih]
    simp [List.map_map, Function.comp]

theorem tokMatchF_star (fuel : Nat) (s : List Char) (h : s.length + 2 ≤ fuel) :
    tokMatchF fuel [GlobTok.star] s = true := by
  induction fuel generalizing s with
  | zero => omega
  | succ f ih =>
    cases s with
    | nil =>
      obtain ⟨f2, rfl⟩ : ∃ f2, f = f2 + 1 := ⟨f - 1, by omega⟩
      rfl
    | cons c cs =>
      have hcs : tokMatchF f [GlobTok.star] cs = true := by
        apply ih
        simp only [List.length_cons] at h
        omega
      show (tokMatchF f [] (c :: cs) || tokMatchF f [GlobTok.star] cs) = true
      rw [hcs, Bool.or_true]

/-- Every string matches the glob `*`. -/
theorem fnmatch_star (s : String) : fnmatch s "*" = true := by
  show tokMatch (lexGlob "*".toList) s.toList = true
  have hlex : lexGlob "*".toList = [GlobTok.star] := rfl
  rw [hlex]
  unfold tokMatch
  apply tokMatchF_star
  simp
  omega

/-- **C6.** (counterexample) The claim "for every non-empty filter chain, a
candidate path that matches none of the chain's patterns appears in the
result" is false: `["*.py"]` is a non-empty chain, `a.txt` matches none of
its patterns, yet `filter_paths ["a.txt"] ["*.py"] = []` — in the code each
path starts tagged *excluded* (`(path, False)`), not included, and the first
pattern acts as the base filter. -/
theorem c6_counterexample :
    ("*.py" :: ([] : List String)) ≠ [] ∧
    matches_filter "a.txt" "*.py" = false ∧
    "a.txt" ∈ ["a.txt"] ∧
    filter_paths ["a.txt"] ["*.py"] = [] :=
  ⟨by decide, by decide, by decide, by decide⟩

/-- **C6.** (amended) When the filter chain is applied, every candidate path
starts tagged as *excluded* and the first pattern serves as the base filter
(with an include-all `*` implicitly prepended when the first pattern is an
exclude); a pattern overwrites a path's tag only if the path matches its
glob. Hence for every non-empty filter chain, a candidate path that matches
none of the chain's patterns appears in the result exactly when the chain's
first pattern is an exclude (the implicit `*` base then includes it); when
the first pattern is an include, such a path is omitted. -/
theorem c6_default_tag_amended (paths : List String) (f0 : String) (rest : List String)
    (p : String) (hp : p ∈ paths)
    (hnm : ∀ pat ∈ f0 :: rest, matches_filter p pat = false) :
    (startsBang f0 = true → p ∈ filter_paths paths (f0 :: rest)) ∧
    (startsBang f0 = false → p ∉ filter_paths paths (f0 :: rest)) := by
  constructor
  · intro hsb
    have hstep : filter_paths paths (f0 :: rest) =
        ((paths.map (fun q => ((f0 :: rest).map compile_filter).foldl (fun a f => f a)
            (compile_filter "*" (q, false)))).filter (fun pr => pr.2)).map (fun pr => pr.1) := by
      unfold filter_paths
      simp only [hsb, if_true, List.map_cons]
      rw [foldl_map_eq_map_chain]
      simp [List.map_map, Function.comp_def]
    rw [hstep]
    have hbase : compile_filter "*" (p, false) = (p, true) := by
      unfold compile_filter
      have h1 : startsBang "*" = false := by decide
      simp [h1, fnmatch_star]
    have hchain : ((f0 :: rest).map compile_filter).foldl (fun a f => f a)
        (compile_filter "*" (p, false)) = (p, true) := by
      rw [hbase]
      exact chain_apply_not_matching _ _ _ hnm
    apply List.mem_map.mpr
    refine ⟨(p, true), ?_, rfl⟩
    apply List.mem_filter.mpr
    refine ⟨List.mem_map.mpr ⟨p, hp, hchain⟩, rfl⟩
  · intro hsb hmem
    have hstep : filter_paths paths (f0 :: rest) =
        ((paths.map (fun q => (rest.map compile_filter).foldl (fun a f => f a)
            (compile_filter f0 (q, false)))).filter (fun pr => pr.2)).map (fun pr => pr.1) := by
      unfold filter_paths
      simp only [hsb, Bool.false_eq_true, if_false, List.map_cons]
      rw [foldl_map_eq_map_chain]
      simp [List.map_map, Function.comp_def]
    rw [hstep] at hmem
    obtain ⟨pr, hprmem, hfst⟩ := List.mem_map.mp hmem
    obtain ⟨hpr2mem, hpr2⟩ := List.mem_filter.mp hprmem
    obtain ⟨q, hq, hgq⟩ := List.mem_map.mp hpr2mem
    have hq1 : pr.1 = q := by
      rw [← hgq, chain_apply_fst]
      exact compile_filter_fst f0 (q, false)
    have hqp : q = p := by rw [← hq1, hfst]
    subst hqp
    have hbase : compile_filter f0 (q, false) = (q, false) :=
      compile_filter_not_matching false (hnm f0 (by simp))
    have : pr = (q, false) := by
      rw [← hgq, hbase]
      exact chain_apply_not_matching rest q false (fun pat hpat => hnm pat (by simp [hpat]))
    rw [this] at hpr2
    simp at hpr2

/-- Witness for **C6** (amended): `["!b.txt"]` starts with an exclude, and
`a.txt` (matching no pattern) is kept. -/
theorem c6_default_tag_amended_witness :
    (startsBang "!b.txt" = true → "a.txt" ∈ filter_paths ["a.txt", "b.txt"] ["!b.txt"]) ∧
    (startsBang "!b.txt" = false → "a.txt" ∉ filter_paths ["a.txt", "b.txt"] ["!b.txt"]) :=
  c6_default_tag_amended ["a.txt", "b.txt"] "!b.txt" [] "a.txt" (by decide) (by decide)

theorem run_check_nil (exec : List String → Bool) (config : Config) (ff : Bool)
    (paths : List String) (st : CheckState) :
    run_pre_commit_check exec config ff paths st [] = ⟨st, [], []⟩ := rfl

theorem run_check_cons_skip (exec : List String → Bool) (config : Config) (ff : Bool)
    (paths : List String) (st : CheckState) (check : PreCommitCheck)
    (rest : List PreCommitCheck)
    (h : (check.skip || (filter_paths paths check.filters).isEmpty) = true) :
    run_pre_commit_check exec config ff paths st (check :: rest) =
      ⟨(run_pre_commit_check exec config ff paths st rest).state,
        (check, Outcome.skipped) :: (run_pre_commit_check exec config ff paths st rest).outcomes,
        (run_pre_commit_check exec config ff paths st rest).execs⟩ := by
  rw [run_pre_commit_check, if_pos h]

theorem run_check_cons_passed (exec : List String → Bool) (config : Config) (ff : Bool)
    (paths : List String) (st : CheckState) (check : PreCommitCheck)
    (rest : List PreCommitCheck)
    (h1 : (check.skip || (filter_paths paths check.filters).isEmpty) = false)
    (h2 : exec (if check.pass_files then check.cmd ++ filter_paths paths check.filters
        else check.cmd) = true) :
    run_pre_commit_check exec config ff paths st (check :: rest) =
      ⟨(run_pre_commit_check exec config ff paths st rest).state,
        (check, Outcome.passed) :: (run_pre_commit_check exec config ff paths st rest).outcomes,
        (check, if check.pass_files then check.cmd ++ filter_paths paths check.filters
          else check.cmd) ::
          (run_pre_commit_check exec config ff paths st rest).execs⟩ := by
  rw [run_pre_commit_check, if_neg (by simp [h1]), if_pos h2]

theorem run_check_cons_failed_ff (exec : List String → Bool) (config : Config) (ff : Bool)
    (paths : List String) (st : CheckState) (check : PreCommitCheck)
    (rest : List PreCommitCheck)
    (h1 : (check.skip || (filter_paths paths check.filters).isEmpty) = false)
    (h2 : exec (if check.pass_files then check.cmd ++ filter_paths paths check.filters
        else check.cmd) = false)
    (h3 : (config.fail_fast || check.fail_fast || ff) = true) :
    run_pre_commit_check exec config ff paths st (check :: rest) =
      ⟨⟨st.num_failed_checks + 1,
          st.failed_fixable_checks ++
            if (!check.fix_cmd.isEmpty && config.autofix) || check.autofix then [check]
            else []⟩,
        [(check, Outcome.failed)],
        [(check, if check.pass_files then check.cmd ++ filter_paths paths check.filters
          else check.cmd)]⟩ := by
  rw [run_pre_commit_check, if_neg (by simp [h1]), if_neg (by simp [h2]), if_pos h3]

theorem run_check_cons_failed_cont (exec : List String → Bool) (config : Config) (ff : Bool)
    (paths : List String) (st : CheckState) (check : PreCommitCheck)
    (rest : List PreCommitCheck)
    (h1 : (check.skip || (filter_paths paths check.filters).isEmpty) = false)
    (h2 : exec (if check.pass_files then check.cmd ++ filter_paths paths check.filters
        else check.cmd) = false)
    (h3 : (config.fail_fast || check.fail_fast || ff) = false) :
    run_pre_commit_check exec config ff paths st (check :: rest) =
      (let st2 : CheckState :=
        ⟨st.num_failed_checks + 1,
          st.failed_fixable_checks ++
            if (!check.fix_cmd.isEmpty && config.autofix) || check.autofix then [check]
            else []⟩
       ⟨(run_pre_commit_check exec config ff paths st2 rest).state,
         (check, Outcome.failed) ::
           (run_pre_commit_check exec config ff paths st2 rest).outcomes,
         (check, if check.pass_files then check.cmd ++ filter_paths paths check.filters
           else check.cmd) ::
           (run_pre_commit_check exec config ff paths st2 rest).execs⟩) := by
  rw [run_pre_commit_check, if_neg (by simp [h1]), if_neg (by simp [h2]),
    if_neg (by simp [h3])]

/-- **C7.** In a `_run_pre_commit_check` pass, a check whose filter chain
applied to the changed paths yields the empty list is reported `skipped`
whenever it is processed, and its command is never executed (no entry for it
appears among the executed commands, whatever the other checks do). -/
theorem c7_empty_filter_skips (exec : List String → Bool) (config : Config)
    (ff : Bool) (paths : List String) (st : CheckState) (checks : List PreCommitCheck)
    (c : PreCommitCheck) (hempty : filter_paths paths c.filters = []) :
    (∀ o, (c, o) ∈ (run_pre_commit_check exec config ff paths st checks).outcomes →
      o = Outcome.skipped) ∧
    (∀ cmdv, (c, cmdv) ∉ (run_pre_commit_check exec config ff paths st checks).execs) := by
  induction checks generalizing st with
  | nil =>
    refine ⟨fun o h => ?_, fun v h => ?_⟩
    · simp [run_check_nil] at h
    · simp [run_check_nil] at h
  | cons check rest ih =>
    by_cases h1 : (check.skip || (filter_paths paths check.filters).isEmpty) = true
    · rw [run_check_cons_skip exec config ff paths st check rest h1]
      refine ⟨fun o h => ?_, fun v h => ?_⟩
      · rcases List.mem_cons.mp h with heq | htail
        · exact congrArg Prod.snd heq
        · exact (ih st).1 o htail
      · exact (ih st).2 v h
    · have h1f : (check.skip || (filter_paths paths check.filters).isEmpty) = false := by
        revert h1
        cases check.skip || (filter_paths paths check.filters).isEmpty <;> simp
      have hcne : c ≠ check := by
        intro he
        rw [← he, hempty] at h1f
        simp at h1f
      by_cases h2 : exec (if check.pass_files then check.cmd ++ filter_paths paths check.filters
          else check.cmd) = true
      · rw [run_check_cons_passed exec config ff paths st check rest h1f h2]
        refine ⟨fun o h => ?_, fun v h => ?_⟩
        · rcases List.mem_cons.mp h with heq | htail
          · exact absurd (congrArg Prod.fst heq) hcne
          · exact (ih st).1 o htail
        · rcases List.mem_cons.mp h with heq | htail
          · exact absurd (congrArg Prod.fst heq) hcne
          · exact (ih st).2 v htail
      · have h2f : exec (if check.pass_files then check.cmd ++ filter_paths paths check.filters
            else check.cmd) = false := by
          revert h2
          cases exec (if check.pass_files then check.cmd ++ filter_paths paths check.filters
            else check.cmd) <;> simp
        by_cases h3 : (config.fail_fast || check.fail_fast || ff) = true
        · rw [run_check_cons_failed_ff exec config ff paths st check rest h1f h2f h3]
          refine ⟨fun o h => ?_, fun v h => ?_⟩
          · rcases List.mem_cons.mp h with heq | htail
            · exact absurd (congrArg Prod.fst heq) hcne
            · simp at htail
          · rcases List.mem_cons.mp h with heq | htail
            · exact absurd (congrArg Prod.fst heq) hcne
            · simp at htail
        · have h3f : (config.fail_fast || check.fail_fast || ff) = false := by
            revert h3
            cases config.fail_fast || check.fail_fast || ff <;> simp
          rw [run_check_cons_failed_cont exec config ff paths st check rest h1f h2f h3f]
          refine ⟨fun o h => ?_, fun v h => ?_⟩
          · rcases List.mem_cons.mp h with heq | htail
            · exact absurd (congrArg Prod.fst heq) hcne
            · exact (ih _).1 o htail
          · rcases List.mem_cons.mp h with heq | htail
            · exact absurd (congrArg Prod.fst heq) hcne
            · exact (ih _).2 v htail

/-- Witness for **C7**: `chkPy` (filters `["*.py"]`) against a run whose
changed paths are only `.txt` files is reported `skipped` and its command is
never executed. -/
theorem c7_empty_filter_skips_witness :
    filter_paths ["a.txt"] chkPy.filters = [] ∧
    ((∀ o, (chkPy, o) ∈
        (run_pre_commit_check execPass cfgC10 false ["a.txt"] ⟨0, []⟩ [chkPy]).outcomes →
        o = Outcome.skipped) ∧
      (∀ cmdv, (chkPy, cmdv) ∉
        (run_pre_commit_check execPass cfgC10 false ["a.txt"] ⟨0, []⟩ [chkPy]).execs)) :=
  ⟨by decide,
    c7_empty_filter_skips execPass cfgC10 false ["a.txt"] ⟨0, []⟩ [chkPy] chkPy (by decide)⟩

/-- **C8.** In a single `_run_pre_commit_check` pass over `[A, B, C]` where
`A`'s command fails (and all three checks are unskipped with non-empty
filtered paths): if `A.fail_fast` or the global `config.fail_fast` or the
CLI `--fail-fast` flag is set, the pass's outcomes are exactly
`[A = failed]` — `B` and `C` are not run and not reported — and only `A`'s
command is executed; if no fail-fast flag is set anywhere, all three checks
execute. -/
theorem c8_fail_fast (exec : List String → Bool) (config : Config) (ff : Bool)
    (paths : List String) (A B C : PreCommitCheck)
    (hA1 : (A.skip || (filter_paths paths A.filters).isEmpty) = false)
    (hB1 : (B.skip || (filter_paths paths B.filters).isEmpty) = false)
    (hC1 : (C.skip || (filter_paths paths C.filters).isEmpty) = false)
    (hAfail : exec (if A.pass_files then A.cmd ++ filter_paths paths A.filters
        else A.cmd) = false) :
    ((config.fail_fast || A.fail_fast || ff) = true →
      (run_pre_commit_check exec config ff paths ⟨0, []⟩ [A, B, C]).outcomes =
        [(A, Outcome.failed)] ∧
      (run_pre_commit_check exec config ff paths ⟨0, []⟩ [A, B, C]).execs.map Prod.fst =
        [A]) ∧
    (config.fail_fast = false ∧ ff = false ∧ A.fail_fast = false ∧ B.fail_fast = false ∧
        C.fail_fast = false →
      (run_pre_commit_check exec config ff paths ⟨0, []⟩ [A, B, C]).outcomes.map Prod.fst =
        [A, B, C] ∧
      (run_pre_commit_check exec config ff paths ⟨0, []⟩ [A, B, C]).execs.map Prod.fst =
        [A, B, C]) := by
  constructor
  · intro h3
    rw [run_check_cons_failed_ff exec config ff paths ⟨0, []⟩ A [B, C] hA1 hAfail h3]
    exact ⟨rfl, rfl⟩
  · rintro ⟨hcf, hff, hAf, hBf, hCf⟩
    have h3A : (config.fail_fast || A.fail_fast || ff) = false := by simp [hcf, hAf, hff]
    have h3B : (config.fail_fast || B.fail_fast || ff) = false := by simp [hcf, hBf, hff]
    have h3C : (config.fail_fast || C.fail_fast || ff) = false := by simp [hcf, hCf, hff]
    rw [run_check_cons_failed_cont exec config ff paths ⟨0, []⟩ A [B, C] hA1 hAfail h3A]
    dsimp only
    by_cases hB2 : exec (if B.pass_files then B.cmd ++ filter_paths paths B.filters
        else B.cmd) = true
    · rw [run_check_cons_passed exec config ff paths _ B [C] hB1 hB2]
      by_cases hC2 : exec (if C.pass_files then C.cmd ++ filter_paths paths C.filters
          else C.cmd) = true
      · rw [run_check_cons_passed exec config ff paths _ C [] hC1 hC2]
        exact ⟨rfl, rfl⟩
      · have hC2f : exec (if C.pass_files then C.cmd ++ filter_paths paths C.filters
            else C.cmd) = false := by
          revert hC2
          cases exec (if C.pass_files then C.cmd ++ filter_paths paths C.filters
            else C.cmd) <;> simp
        rw [run_check_cons_failed_cont exec config ff paths _ C [] hC1 hC2f h3C]
        exact ⟨rfl, rfl⟩
    · have hB2f : exec (if B.pass_files then B.cmd ++ filter_paths paths B.filters
          else B.cmd) = false := by
        revert hB2
        cases exec (if B.pass_files then B.cmd ++ filter_paths paths B.filters
          else B.cmd) <;> simp
      rw [run_check_cons_failed_cont exec config ff paths _ B [C] hB1 hB2f h3B]
      dsimp only
      by_cases hC2 : exec (if C.pass_files then C.cmd ++ filter_paths paths C.filters
          else C.cmd) = true
      · rw [run_check_cons_passed exec config ff paths _ C [] hC1 hC2]
        exact ⟨rfl, rfl⟩
      · have hC2f : exec (if C.pass_files then C.cmd ++ filter_paths paths C.filters
            else C.cmd) = false := by
          revert hC2
          cases exec (if C.pass_files then C.cmd ++ filter_paths paths C.filters
            else C.cmd) <;> simp
        rw [run_check_cons_failed_cont exec config ff paths _ C [] hC1 hC2f h3C]
        exact ⟨rfl, rfl⟩

/-- Witness for **C8**: with `chkFFA` (whose `fail_fast` is set) failing,
the pass reports only `FFA = failed` and runs only `FFA`'s command. -/
theorem c8_fail_fast_witness :
    (((cfgC8.fail_fast || chkFFA.fail_fast || false) = true →
      (run_pre_commit_check execFailFFA cfgC8 false ["a.txt"] ⟨0, []⟩
        [chkFFA, chkFFB, chkFFC]).outcomes = [(chkFFA, Outcome.failed)] ∧
      (run_pre_commit_check execFailFFA cfgC8 false ["a.txt"] ⟨0, []⟩
        [chkFFA, chkFFB, chkFFC]).execs.map Prod.fst = [chkFFA]) ∧
    (cfgC8.fail_fast = false ∧ false = false ∧ chkFFA.fail_fast = false ∧
        chkFFB.fail_fast = false ∧ chkFFC.fail_fast = false →
      (run_pre_commit_check execFailFFA cfgC8 false ["a.txt"] ⟨0, []⟩
        [chkFFA, chkFFB, chkFFC]).outcomes.map Prod.fst = [chkFFA, chkFFB, chkFFC] ∧
      (run_pre_commit_check execFailFFA cfgC8 false ["a.txt"] ⟨0, []⟩
        [chkFFA, chkFFB, chkFFC]).execs.map Prod.fst = [chkFFA, chkFFB, chkFFC])) :=
  c8_fail_fast execFailFFA cfgC8 false ["a.txt"] chkFFA chkFFB chkFFC
    (by decide) (by decide) (by decide) (by decide)

theorem run_fix_loop_execs_mem (exec : List String → Bool) (paths : List String)
    (unstaged : Bool) (l : List PreCommitCheck) (c : PreCommitCheck) (v : List String)
    (h : (c, v) ∈ (run_fix_loop exec paths unstaged l).execs) : c ∈ l := by
  induction l with
  | nil => simp [run_fix_loop] at h
  | cons check rest ih =>
    rw [run_fix_loop] at h
    split at h
    · dsimp only at h
      exact List.mem_cons_of_mem _ (ih h)
    · dsimp only at h
      split at h
      all_goals split at h
      all_goals rcases List.mem_cons.mp h with heq | htail
      all_goals first
        | exact List.mem_cons.mpr (Or.inl (congrArg Prod.fst heq))
        | exact List.mem_cons_of_mem _ (ih htail)

theorem run_pre_commit_fix_execs_mem (exec : List String → Bool) (paths : List String)
    (checks : List PreCommitCheck) (unstaged : Bool) (c : PreCommitCheck) (v : List String)
    (h : (c, v) ∈ (run_pre_commit_fix exec paths checks unstaged).execs) :
    c ∈ checks ∧ c.fix_cmd ≠ [] := by
  unfold run_pre_commit_fix at h
  have hmem := run_fix_loop_execs_mem exec paths unstaged _ c v h
  have hfil := List.mem_filter.mp hmem
  refine ⟨hfil.1, ?_⟩
  have h2 := hfil.2
  simpa using h2

theorem failed_fixable_mem (exec : List String → Bool) (config : Config) (ff : Bool)
    (paths : List String) (st : CheckState) (checks : List PreCommitCheck)
    (c : PreCommitCheck)
    (h : c ∈ (run_pre_commit_check exec config ff paths st checks).state.failed_fixable_checks) :
    c ∈ st.failed_fixable_checks ∨
      (c, Outcome.failed) ∈ (run_pre_commit_check exec config ff paths st checks).outcomes := by
  induction checks generalizing st with
  | nil =>
    rw [run_check_nil] at h
    exact Or.inl h
  | cons check rest ih =>
    by_cases h1 : (check.skip || (filter_paths paths check.filters).isEmpty) = true
    · rw [run_check_cons_skip exec config ff paths st check rest h1] at h ⊢
      rcases ih st h with hl | hr
      · exact Or.inl hl
      · exact Or.inr (List.mem_cons_of_mem _ hr)
    · have h1f : (check.skip || (filter_paths paths check.filters).isEmpty) = false := by
        revert h1
        cases check.skip || (filter_paths paths check.filters).isEmpty <;> simp
      by_cases h2 : exec (if check.pass_files then check.cmd ++ filter_paths paths check.filters
          else check.cmd) = true
      · rw [run_check_cons_passed exec config ff paths st check rest h1f h2] at h ⊢
        rcases ih st h with hl | hr
        · exact Or.inl hl
        · exact Or.inr (List.mem_cons_of_mem _ hr)
      · have h2f : exec (if check.pass_files then check.cmd ++ filter_paths paths check.filters
            else check.cmd) = false := by
          revert h2
          cases exec (if check.pass_files then check.cmd ++ filter_paths paths check.filters
            else check.cmd) <;> simp
        by_cases h3 : (config.fail_fast || check.fail_fast || ff) = true
        · rw [run_check_cons_failed_ff exec config ff paths st check rest h1f h2f h3] at h ⊢
          dsimp only at h
          rcases List.mem_append.mp h with hl | hr
          · exact Or.inl hl
          · split at hr
            · have : c = check := by simpa using hr
              exact Or.inr (this ▸ List.mem_cons_self _ _)
            · simp at hr
        · have h3f : (config.fail_fast || check.fail_fast || ff) = false := by
            revert h3
            cases config.fail_fast || check.fail_fast || ff <;> simp
          rw [run_check_cons_failed_cont exec config ff paths st check rest h1f h2f h3f] at h ⊢
          dsimp only at h ⊢
          rcases ih _ h with hl | hr
          · dsimp only at hl
            rcases List.mem_append.mp hl with hll | hlr
            · exact Or.inl hll
            · split at hlr
              · have : c = check := by simpa using hlr
                exact Or.inr (this ▸ List.mem_cons_self _ _)
              · simp at hlr
          · exact Or.inr (List.mem_cons_of_mem _ hr)

theorem run_pre_commit_eq_ok (exec : List String → Bool) (config : Config)
    (git : Bool → GitState) (fm u a ff : Bool) (skip : List String)
    (checks : List PreCommitCheck)
    (hg : get_checks_to_run config skip = .ok checks) :
    run_pre_commit exec config git fm u a ff skip =
      .ok (run_pre_commit_body exec config git fm u a ff checks) := by
  unfold run_pre_commit
  rw [hg]
  rfl

theorem run_pre_commit_eq_error (exec : List String → Bool) (config : Config)
    (git : Bool → GitState) (fm u a ff : Bool) (skip : List String) (e : RunError)
    (hg : get_checks_to_run config skip = .error e) :
    run_pre_commit exec config git fm u a ff skip = .error e := by
  unfold run_pre_commit
  rw [hg]
  rfl

theorem run_body_fix_mode (exec : List String → Bool) (config : Config)
    (git : Bool → GitState) (unstaged all_files ff : Bool)
    (checks : List PreCommitCheck) :
    run_pre_commit_body exec config git true unstaged all_files ff checks =
      ⟨[], [(resolve_changed_paths (git false) unstaged all_files,
          run_pre_commit_fix exec (resolve_changed_paths (git false) unstaged all_files)
            checks unstaged)], ⟨0, []⟩⟩ := by
  unfold run_pre_commit_body
  rfl

theorem run_body_autofix_branch (exec : List String → Bool) (config : Config)
    (git : Bool → GitState) (unstaged all_files ff : Bool)
    (checks : List PreCommitCheck)
    (hcond : ((run_pre_commit_check exec config ff
          (resolve_changed_paths (git false) unstaged all_files) ⟨0, []⟩ checks).state.num_failed_checks > 0 &&
        !(run_pre_commit_check exec config ff
          (resolve_changed_paths (git false) unstaged all_files) ⟨0, []⟩ checks).state.failed_fixable_checks.isEmpty) = true) :
    run_pre_commit_body exec config git false unstaged all_files ff checks =
      ⟨[(resolve_changed_paths (git false) unstaged all_files, ⟨0, []⟩,
          run_pre_commit_check exec config ff
            (resolve_changed_paths (git false) unstaged all_files) ⟨0, []⟩ checks),
        (resolve_changed_paths (git false) unstaged all_files, ⟨0, []⟩,
          run_pre_commit_check exec config ff
            (resolve_changed_paths (git false) unstaged all_files) ⟨0, []⟩ checks)],
        [(resolve_changed_paths (git false) unstaged all_files,
          run_pre_commit_fix exec (resolve_changed_paths (git false) unstaged all_files)
            (run_pre_commit_check exec config ff
              (resolve_changed_paths (git false) unstaged all_files) ⟨0, []⟩ checks).state.failed_fixable_checks
            unstaged)],
        (run_pre_commit_check exec config ff
          (resolve_changed_paths (git false) unstaged all_files) ⟨0, []⟩ checks).state⟩ := by
  unfold run_pre_commit_body
  rw [if_neg (by simp), if_pos hcond]

theorem run_body_no_autofix_branch (exec : List String → Bool) (config : Config)
    (git : Bool → GitState) (unstaged all_files ff : Bool)
    (checks : List PreCommitCheck)
    (hcond : ((run_pre_commit_check exec config ff
          (resolve_changed_paths (git false) unstaged all_files) ⟨0, []⟩ checks).state.num_failed_checks > 0 &&
        !(run_pre_commit_check exec config ff
          (resolve_changed_paths (git false) unstaged all_files) ⟨0, []⟩ checks).state.failed_fixable_checks.isEmpty) = false) :
    run_pre_commit_body exec config git false unstaged all_files ff checks =
      ⟨[(resolve_changed_paths (git false) unstaged all_files, ⟨0, []⟩,
          run_pre_commit_check exec config ff
            (resolve_changed_paths (git false) unstaged all_files) ⟨0, []⟩ checks)],
        [],
        (run_pre_commit_check exec config ff
          (resolve_changed_paths (git false) unstaged all_files) ⟨0, []⟩ checks).state⟩ := by
  unfold run_pre_commit_body
  rw [if_neg (by simp), if_neg (by simp [hcond])]

theorem run_ok_candidates (exec : List String → Bool) (config : Config)
    (git : Bool → GitState) (fm unstaged all_files ff : Bool) (skip : List String)
    (r : RunResult)
    (h : run_pre_commit exec config git fm unstaged all_files ff skip = .ok r) :
    (∀ pr ∈ r.passes, pr.1 = resolve_changed_paths (git false) unstaged all_files) ∧
    (∀ fx ∈ r.fixes, fx.1 = resolve_changed_paths (git false) unstaged all_files) := by
  rcases hg : get_checks_to_run config skip with e | checks
  · rw [run_pre_commit_eq_error exec config git fm unstaged all_files ff skip e hg] at h
    simp at h
  · rw [run_pre_commit_eq_ok exec config git fm unstaged all_files ff skip checks hg] at h
    injection h with hbody
    rw [← hbody]
    cases fm with
    | true =>
      rw [run_body_fix_mode exec config git unstaged all_files ff checks]
      constructor
      · intro pr hpr
        simp at hpr
      · intro fx hfx
        simp at hfx
        rw [hfx]
    | false =>
      by_cases hcond : ((run_pre_commit_check exec config ff
            (resolve_changed_paths (git false) unstaged all_files) ⟨0, []⟩ checks).state.num_failed_checks > 0 &&
          !(run_pre_commit_check exec config ff
            (resolve_changed_paths (git false) unstaged all_files) ⟨0, []⟩ checks).state.failed_fixable_checks.isEmpty) = true
      · rw [run_body_autofix_branch exec config git unstaged all_files ff checks hcond]
        constructor
        · intro pr hpr
          rcases List.mem_cons.mp hpr with he | hpr2
          · rw [he]
          · simp at hpr2
            rw [hpr2]
        · intro fx hfx
          simp at hfx
          rw [hfx]
      · have hcf : ((run_pre_commit_check exec config ff
              (resolve_changed_paths (git false) unstaged all_files) ⟨0, []⟩ checks).state.num_failed_checks > 0 &&
            !(run_pre_commit_check exec config ff
              (resolve_changed_paths (git false) unstaged all_files) ⟨0, []⟩ checks).state.failed_fixable_checks.isEmpty) = false := by
          revert hcond
          cases ((run_pre_commit_check exec config ff
              (resolve_changed_paths (git false) unstaged all_files) ⟨0, []⟩ checks).state.num_failed_checks > 0 &&
            !(run_pre_commit_check exec config ff
              (resolve_changed_paths (git false) unstaged all_files) ⟨0, []⟩ checks).state.failed_fixable_checks.isEmpty) <;> simp
        rw [run_body_no_autofix_branch exec config git unstaged all_files ff checks hcf]
        constructor
        · intro pr hpr
          simp at hpr
          rw [hpr]
        · intro fx hfx
          simp at hfx

/-- **C1.** (code evidence) In `cfgC1` every check has an empty `fix_cmd`
and the global `autofix` is off, yet the run enters the Autofixing phase
(one fix pass) and the Retrying pass (two check passes): the condition on
checks.py line 107, `check.fix_cmd and self.config.autofix or check.autofix`,
parses as `(fix_cmd and config.autofix) or check.autofix`, so a failed check
with `autofix = true` and no `fix_cmd` is still appended to
`failed_fixable_checks`. The claim (and the spec) require a non-empty
`fix_cmd` for the phase to be entered. -/
theorem c1_autofix_entered_without_fix_cmd :
    (∀ check ∈ cfgC1.pre_commit_checks, check.fix_cmd = []) ∧
    cfgC1.autofix = false ∧
    (run_pre_commit execFail cfgC1 gitConst false false false false []).map
      (fun r => (r.passes.length, r.fixes.length)) = .ok (2, 1) :=
  ⟨by decide, by decide, rfl⟩

/-- **C2.** (counterexample) The Autofixing phase is entered (`rC2.fixes` is
non-empty), `chkB` is a configured check with a non-empty `fix_cmd` and a
non-empty re-filtered file list, yet no fix command is invoked for `chkB` —
the engine re-runs fixes only for the checks that failed, contradicting the
claim that every fixable check's fix is invoked. -/
theorem c2_counterexample :
    rC2.fixes ≠ [] ∧
    chkB ∈ cfgC2.pre_commit_checks ∧
    chkB.fix_cmd ≠ [] ∧
    (∀ fx ∈ rC2.fixes, filter_paths fx.1 chkB.filters ≠ []) ∧
    (∀ fx ∈ rC2.fixes, ∀ e ∈ fx.2.execs, e.1 ≠ chkB) :=
  ⟨by decide, by decide, by decide, by decide, by decide⟩

/-- **C2.** (amended) Whenever the Autofixing phase is entered, the engine
invokes fix commands only for checks that were recorded during the preceding
`RunningChecks` pass: every fix command executed belongs to a check with a
non-empty `fix_cmd` that was reported `failed` in the first pass — not to
every fixable CheckSpec in the run. -/
theorem c2_autofix_only_failed_amended (exec : List String → Bool) (config : Config)
    (git : Bool → GitState) (unstaged all_files ff : Bool) (skip : List String)
    (r : RunResult) (cands : List String) (fr : FixResult) (c : PreCommitCheck)
    (v : List String)
    (h : run_pre_commit exec config git false unstaged all_files ff skip = .ok r)
    (hfx : (cands, fr) ∈ r.fixes)
    (hexec : (c, v) ∈ fr.execs) :
    c.fix_cmd ≠ [] ∧
    ∃ pr, r.passes.head? = some pr ∧ (c, Outcome.failed) ∈ pr.2.2.outcomes := by
  rcases hg : get_checks_to_run config skip with e | checks
  · rw [run_pre_commit_eq_error exec config git false unstaged all_files ff skip e hg] at h
    simp at h
  · rw [run_pre_commit_eq_ok exec config git false unstaged all_files ff skip checks hg] at h
    injection h with hbody
    rw [← hbody] at hfx ⊢
    by_cases hcond : ((run_pre_commit_check exec config ff
          (resolve_changed_paths (git false) unstaged all_files) ⟨0, []⟩ checks).state.num_failed_checks > 0 &&
        !(run_pre_commit_check exec config ff
          (resolve_changed_paths (git false) unstaged all_files) ⟨0, []⟩ checks).state.failed_fixable_checks.isEmpty) = true
    · rw [run_body_autofix_branch exec config git unstaged all_files ff checks hcond] at hfx ⊢
      simp only [List.mem_singleton, Prod.mk.injEq] at hfx
      have hfr : fr = run_pre_commit_fix exec
          (resolve_changed_paths (git false) unstaged all_files)
          (run_pre_commit_check exec config ff
            (resolve_changed_paths (git false) unstaged all_files) ⟨0, []⟩ checks).state.failed_fixable_checks
          unstaged := hfx.2
      rw [hfr] at hexec
      have hmem := run_pre_commit_fix_execs_mem exec _ _ unstaged c v hexec
      refine ⟨hmem.2, ?_⟩
      have hor := failed_fixable_mem exec config ff
        (resolve_changed_paths (git false) unstaged all_files) ⟨0, []⟩ checks c hmem.1
      rcases hor with hl | hr
      · simp at hl
      · exact ⟨_, rfl, hr⟩
    · have hcf : ((run_pre_commit_check exec config ff
            (resolve_changed_paths (git false) unstaged all_files) ⟨0, []⟩ checks).state.num_failed_checks > 0 &&
          !(run_pre_commit_check exec config ff
            (resolve_changed_paths (git false) unstaged all_files) ⟨0, []⟩ checks).state.failed_fixable_checks.isEmpty) = false := by
        revert hcond
        cases ((run_pre_commit_check exec config ff
            (resolve_changed_paths (git false) unstaged all_files) ⟨0, []⟩ checks).state.num_failed_checks > 0 &&
          !(run_pre_commit_check exec config ff
            (resolve_changed_paths (git false) unstaged all_files) ⟨0, []⟩ checks).state.failed_fixable_checks.isEmpty) <;> simp
      rw [run_body_no_autofix_branch exec config git unstaged all_files ff checks hcf] at hfx
      simp at hfx

/-- Witness for **C2** (amended): in the `cfgC2` run the one executed fix
belongs to `chkA`, which has a non-empty `fix_cmd` and failed in pass one. -/
theorem c2_autofix_only_failed_amended_witness :
    chkA.fix_cmd ≠ [] ∧
    ∃ pr, rC2.passes.head? = some pr ∧ (chkA, Outcome.failed) ∈ pr.2.2.outcomes :=
  c2_autofix_only_failed_amended execFailA cfgC2 gitConst false false false [] rC2
    ["a.txt"] (run_pre_commit_fix execFailA ["a.txt"]
      [chkA] false) chkA ["a-fix", "a.txt"] rfl (by decide) (by decide)

/-- **C3.** For every check-mode run in which autofix triggers (whether or
not the fix resolves the failure), the engine performs exactly one
autofix-and-retry cycle: one fix pass, exactly two check passes (the full
check list re-run exactly once more), both passes started from the zeroed
counter state (the counters are reset before the second pass), and no third
pass — the final counter state, which determines the exit status, is the
second pass's state. -/
theorem c3_single_retry (exec : List String → Bool) (config : Config)
    (git : Bool → GitState) (unstaged all_files ff : Bool) (skip : List String)
    (r : RunResult)
    (h : run_pre_commit exec config git false unstaged all_files ff skip = .ok r)
    (htrig : r.fixes ≠ []) :
    r.passes.length = 2 ∧ r.fixes.length = 1 ∧
    (∀ pr ∈ r.passes, pr.2.1 = (⟨0, []⟩ : CheckState)) ∧
    r.passes.getLast?.map (fun pr => pr.2.2.state) = some r.final := by
  rcases hg : get_checks_to_run config skip with e | checks
  · rw [run_pre_commit_eq_error exec config git false unstaged all_files ff skip e hg] at h
    simp at h
  · rw [run_pre_commit_eq_ok exec config git false unstaged all_files ff skip checks hg] at h
    injection h with hbody
    rw [← hbody] at htrig ⊢
    by_cases hcond : ((run_pre_commit_check exec config ff
          (resolve_changed_paths (git false) unstaged all_files) ⟨0, []⟩ checks).state.num_failed_checks > 0 &&
        !(run_pre_commit_check exec config ff
          (resolve_changed_paths (git false) unstaged all_files) ⟨0, []⟩ checks).state.failed_fixable_checks.isEmpty) = true
    · rw [run_body_autofix_branch exec config git unstaged all_files ff checks hcond]
      refine ⟨rfl, rfl, ?_, rfl⟩
      intro pr hpr
      rcases List.mem_cons.mp hpr with he | hpr2
      · rw [he]
      · simp at hpr2
        rw [hpr2]
    · have hcf : ((run_pre_commit_check exec config ff
            (resolve_changed_paths (git false) unstaged all_files) ⟨0, []⟩ checks).state.num_failed_checks > 0 &&
          !(run_pre_commit_check exec config ff
            (resolve_changed_paths (git false) unstaged all_files) ⟨0, []⟩ checks).state.failed_fixable_checks.isEmpty) = false := by
        revert hcond
        cases ((run_pre_commit_check exec config ff
            (resolve_changed_paths (git false) unstaged all_files) ⟨0, []⟩ checks).state.num_failed_checks > 0 &&
          !(run_pre_commit_check exec config ff
            (resolve_changed_paths (git false) unstaged all_files) ⟨0, []⟩ checks).state.failed_fixable_checks.isEmpty) <;> simp
      rw [run_body_no_autofix_branch exec config git unstaged all_files ff checks hcf] at htrig
      simp at htrig

/-- Witness for **C3**: the `cfgC3` run (whose fix never resolves the
failure) performs exactly two check passes and one fix pass, both check
passes starting from the zeroed state. -/
theorem c3_single_retry_witness :
    rC3.passes.length = 2 ∧ rC3.fixes.length = 1 ∧
    (∀ pr ∈ rC3.passes, pr.2.1 = (⟨0, []⟩ : CheckState)) ∧
    rC3.passes.getLast?.map (fun pr => pr.2.2.state) = some rC3.final :=
  c3_single_retry execNoopFix cfgC3 gitConst false false false [] rC3 rfl (by decide)

/-- **C4.** (counterexample) The claim "the engine re-resolves the ChangeSet
after Autofixing" is false: against `gitChanging` (whose changed paths after
the fix pass are `["b.txt"]`, not `["a.txt"]`), the run enters Autofixing
and both check passes use the initially resolved list `["a.txt"]`; a
re-resolution would have produced `["b.txt"]`. -/
theorem c4_counterexample :
    runC4 = .ok rC4 ∧
    rC4.fixes.length = 1 ∧
    rC4.passes.map (fun pr => pr.1) = [["a.txt"], ["a.txt"]] ∧
    resolve_changed_paths (gitChanging true) false false = ["b.txt"] ∧
    (["a.txt"] : List String) ≠ ["b.txt"] :=
  ⟨rfl, by decide, by decide, by decide, by decide⟩

/-- **C4.** (amended) In the Retrying phase, after Autofixing completes, the
engine *reuses* the path list that was resolved at the start of the run: in
every run, every check pass and every fix pass operates on
`resolve_changed_paths (git false)` — the version-control queries made when
the run began — and version control is never queried again. -/
theorem c4_reuses_initial_paths_amended (exec : List String → Bool) (config : Config)
    (git : Bool → GitState) (fm unstaged all_files ff : Bool) (skip : List String)
    (r : RunResult)
    (h : run_pre_commit exec config git fm unstaged all_files ff skip = .ok r) :
    (∀ pr ∈ r.passes, pr.1 = resolve_changed_paths (git false) unstaged all_files) ∧
    (∀ fx ∈ r.fixes, fx.1 = resolve_changed_paths (git false) unstaged all_files) :=
  run_ok_candidates exec config git fm unstaged all_files ff skip r h

/-- Witness for **C4** (amended): in the `gitChanging` run both passes and
the fix pass used the initially resolved `["a.txt"]`. -/
theorem c4_reuses_initial_paths_witness :
    (∀ pr ∈ rC4.passes, pr.1 = resolve_changed_paths (gitChanging false) false false) ∧
    (∀ fx ∈ rC4.fixes, fx.1 = resolve_changed_paths (gitChanging false) false false) :=
  c4_reuses_initial_paths_amended execNoopFix cfgC3 gitChanging false false false false []
    rC4 rfl

/-- **C9.** If a `--skip` (or `--only`) argument names no configured check,
a fatal configuration error is raised before the ChangeSet is resolved and
before any check command executes: the run returns the error for every git
oracle and every executor (so neither is consulted — no check runs), and the
process exits with status 1. The `--skip` path is from
`_get_checks_to_run`; the `--only` path uses the spec-modelled
`select_only` (see its doc comment). -/
theorem c9_unknown_skip_only_fatal (config : Config) (nm : String)
    (h : ∀ check ∈ config.pre_commit_checks, strToLower check.name ≠ strToLower nm) :
    (∀ (exec : List String → Bool) (git : Bool → GitState) (fm u a ff : Bool),
      run_pre_commit exec config git fm u a ff [nm] =
        .error (.unknownCheckName (strToLower nm)) ∧
      main_exit_code (run_pre_commit exec config git fm u a ff [nm]) = 1) ∧
    (∀ (exec : List String → Bool) (git : Bool → GitState) (fm u a ff : Bool),
      run_pre_commit_cli exec config git fm u a ff [] [nm] =
        .error (.unknownCheckName (strToLower nm)) ∧
      main_exit_code (run_pre_commit_cli exec config git fm u a ff [] [nm]) = 1) := by
  have hany : (config.pre_commit_checks.any
      (fun check => strToLower check.name == strToLower nm)) = false := by
    rw [List.any_eq_false]
    intro check hc
    simp only [beq_iff_eq]
    exact h check hc
  have hg : get_checks_to_run config [nm] = .error (.unknownCheckName (strToLower nm)) := by
    unfold get_checks_to_run
    have hmap : ([nm].map strToLower) = [strToLower nm] := rfl
    rw [hmap, mark_skips]
    rw [if_neg (by simp [hany])]
  constructor
  · intro exec git fm u a ff
    have he := run_pre_commit_eq_error exec config git fm u a ff [nm] _ hg
    exact ⟨he, by rw [he]; rfl⟩
  · intro exec git fm u a ff
    have hg0 : get_checks_to_run config [] = .ok config.pre_commit_checks := rfl
    have hso : select_only config.pre_commit_checks [nm] =
        .error (.unknownCheckName (strToLower nm)) := by
      unfold select_only
      simp only [List.map_cons, List.map_nil]
      rw [List.find?_cons_of_pos _ (by simp [hany])]
    have hcli : run_pre_commit_cli exec config git fm u a ff [] [nm] =
        .error (.unknownCheckName (strToLower nm)) := by
      unfold run_pre_commit_cli
      simp only [hg0, hso]
    exact ⟨hcli, by rw [hcli]; rfl⟩

/-- Witness for **C9**: `nope` names no check of `cfgC9`; both the `--skip`
and the `--only` paths return the fatal error and exit status 1. -/
theorem c9_unknown_skip_only_fatal_witness :
    (run_pre_commit execPass cfgC9 gitConst false false false false ["nope"] =
      .error (.unknownCheckName (strToLower "nope")) ∧
    main_exit_code (run_pre_commit execPass cfgC9 gitConst false false false false ["nope"]) = 1) ∧
    (run_pre_commit_cli execPass cfgC9 gitConst false false false false [] ["nope"] =
      .error (.unknownCheckName (strToLower "nope")) ∧
    main_exit_code
      (run_pre_commit_cli execPass cfgC9 gitConst false false false false [] ["nope"]) = 1) := by
  have h := c9_unknown_skip_only_fatal cfgC9 "nope" (by decide)
  exact ⟨h.1 execPass gitConst false false false false, h.2 execPass gitConst false false false false⟩

/-- **C10.** In every pre-commit run without `--all` (check mode or fix
mode), the candidate path list handed to the filter chains is exactly the
changed paths followed by the untracked files — so it always contains every
untracked file, whether or not `--unstaged` was given. -/
theorem c10_untracked_always_included (exec : List String → Bool) (config : Config)
    (git : Bool → GitState) (fm unstaged ff : Bool) (skip : List String) (r : RunResult)
    (h : run_pre_commit exec config git fm unstaged false ff skip = .ok r) :
    (∀ pr ∈ r.passes, pr.1 = get_changed_paths (git false) unstaged ++ (git false).untracked ∧
      ∀ p ∈ (git false).untracked, p ∈ pr.1) ∧
    (∀ fx ∈ r.fixes, fx.1 = get_changed_paths (git false) unstaged ++ (git false).untracked ∧
      ∀ p ∈ (git false).untracked, p ∈ fx.1) := by
  have hres : resolve_changed_paths (git false) unstaged false =
      get_changed_paths (git false) unstaged ++ (git false).untracked := by
    unfold resolve_changed_paths
    rw [if_neg (by simp)]
  have hc := run_ok_candidates exec config git fm unstaged false ff skip r h
  constructor
  · intro pr hpr
    have hpr1 := hc.1 pr hpr
    rw [hres] at hpr1
    exact ⟨hpr1, fun p hp => by rw [hpr1]; exact List.mem_append_right _ hp⟩
  · intro fx hfx
    have hfx1 := hc.2 fx hfx
    rw [hres] at hfx1
    exact ⟨hfx1, fun p hp => by rw [hfx1]; exact List.mem_append_right _ hp⟩

/-- Witness for **C10**: the `cfgC10` run against a repository with
untracked file `u.txt` hands `["c.txt", "u.txt"]` to the filter chains. -/
theorem c10_untracked_always_included_witness :
    (∀ pr ∈ rC10.passes,
      pr.1 = get_changed_paths (gitConstU false) false ++ (gitConstU false).untracked ∧
      ∀ p ∈ (gitConstU false).untracked, p ∈ pr.1) ∧
    (∀ fx ∈ rC10.fixes,
      fx.1 = get_changed_paths (gitConstU false) false ++ (gitConstU false).untracked ∧
      ∀ p ∈ (gitConstU false).untracked, p ∈ fx.1) :=
  c10_untracked_always_included execPass cfgC10 gitConstU false false false [] rC10 rfl

end IPrecommit
